import Mathlib

/-!
Verification of the change-feed component of a CouchDB client library
(src/changes.go). The byte stream of the HTTP response body is modelled as a
`List Nat` of byte values; the output channel is modelled by the ordered trace
of actions the reader goroutine performs (sends and closes). External
collaborators (the query encoder `query.Values`, the HTTP transport
`Client.Request`, and `json.Unmarshal`) are abstracted as function parameters,
so every theorem quantifies over their behaviour.
-/

namespace Couchdb

/-- Model of `Rev` from src/changes.go: holds the rev of the document changed. -/
structure Rev where
  rev : String
deriving DecidableEq

/-- Model of `Change` from src/changes.go: a single row inside results.
Field names follow the Go struct (`Changes`, `ID`, `Seq`). -/
structure Change where
  Changes : List Rev
  ID : String
  Seq : String
deriving DecidableEq

/-- Model of `ChangesResponse` from src/changes.go: response for polling `_changes`. -/
structure ChangesResponse where
  LastSeq : String
  Results : List Change
  Pending : Int
deriving DecidableEq

/-- Model of `ChangesQueryParameters` from src/changes.go. Pointer-typed Go fields
(`*string`, `*bool`, `*int`) become `Option`; a `nil` pointer is `none`. -/
structure ChangesQueryParameters where
  DocIDs : List String := []
  Conflicts : Option Bool := none
  Descending : Option Bool := none
  Feed : Option String := none
  Filter : Option String := none
  Heartbeat : Option Int := none
  IncludeDocs : Option Bool := none
  Attachments : Option Bool := none
  AttEncodingInfo : Option Bool := none
  LastEventID : Option Int := none
  Limit : Option Int := none
  Since : Option String := none
  Style : Option String := none
  Timeout : Option Int := none
  View : Option String := none
deriving DecidableEq

/-- ASCII whitespace, as trimmed by `bytes.TrimSpace` on its ASCII fast path
(tab, LF, VT, FF, CR, space). The change feed is ASCII-framed newline-delimited
JSON, so the multi-byte Unicode spaces handled by the slow path do not arise in
the byte positions the claims are about. -/
def isSpace (b : Nat) : Bool :=
  b == 9 || b == 10 || b == 11 || b == 12 || b == 13 || b == 32

/-- Model of `bytes.TrimSpace`: drop leading and trailing whitespace bytes. -/
def trimSpace (s : List Nat) : List Nat :=
  ((s.dropWhile isSpace).reverse.dropWhile isSpace).reverse

/-- Model of `bufio.Reader.ReadBytes` with a newline delimiter, over the remaining stream: `some (line, rest)`
when a newline byte (10) occurs, with `line` including the newline; `none`
models `ReadBytes` returning a non-nil error (the stream ends before a newline
is found), which is exactly the condition that terminates the `readStream`
loop. The bytes `ReadBytes` returns alongside the error are dropped by the
loop, so they need not be modelled. -/
def readBytesNL : List Nat → Option (List Nat × List Nat)
  | [] => none
  | b :: rest =>
    if b = 10 then some ([b], rest)
    else
      match readBytesNL rest with
      | some (l, r) => some (b :: l, r)
      | none => none

/-- A successful `readBytesNL` consumes at least the newline byte, so the
remaining stream is strictly shorter. -/
def readBytesNL_rest_lt : ∀ (s l r : List Nat),
    readBytesNL s = some (l, r) → r.length < s.length := by
  intro s
  induction s with
  | nil => intro l r h; simp [readBytesNL] at h
  | cons b rest ih =>
    intro l r h
    by_cases hb : b = 10
    · simp [readBytesNL, hb] at h
      simp [← h.2, List.length_cons]
    · simp only [readBytesNL, if_neg hb] at h
      cases hr : readBytesNL rest with
      | none => rw [hr] at h; exact absurd h (by simp)
      | some p =>
        rw [hr] at h
        obtain ⟨l2, r2⟩ := p
        simp at h
        have := ih l2 r2 hr
        simp [← h.2, List.length_cons]
        omega

/-- Observable actions of the `readStream` goroutine, in program order:
`send c` is `results <- result`, `closeChan` is `close(results)`, `closeBody`
is `r.Body.Close()`. -/
inductive Action where
  | send (c : Change)
  | closeChan
  | closeBody
deriving DecidableEq

/-- Model of `readStream` from src/changes.go lines 93-111, as the trace of its actions.
The loop runs while `ReadBytes` reports no error; each iteration trims the
line, skips it when empty, attempts a JSON decode (`dec` abstracts
`json.Unmarshal`; `json.Unmarshal` is applied to the trimmed line, since the
Go code reassigns `line = bytes.TrimSpace(line)` first), and performs
`results <- result` when the decode succeeds and `result.Seq != ""`. The
`err = json.Unmarshal(...)` assignment never affects the loop condition,
because the post clause of the for statement reassigns `err` from `ReadBytes`
before the condition is evaluated. On loop exit the two deferred calls run in
LIFO order: `close(results)` (registered second) runs first, then
`r.Body.Close()` (registered first). -/
def readStream (dec : List Nat → Option Change) : List Nat → List Action
  | s =>
    match h : readBytesNL s with
    | none => [Action.closeChan, Action.closeBody]
    | some (line, rest) =>
      let t := trimSpace line
      if t.length ≤ 0 then readStream dec rest
      else
        match dec t with
        | some result =>
          if result.Seq ≠ "" then Action.send result :: readStream dec rest
          else readStream dec rest
        | none => readStream dec rest
termination_by s => s.length
decreasing_by all_goals exact readBytesNL_rest_lt _ _ _ h

/-- The sequence of `Change` values sent on the output channel, in send order. -/
def sentEvents (dec : List Nat → Option Change) (s : List Nat) : List Change :=
  (readStream dec s).filterMap fun a =>
    match a with
    | Action.send c => some c
    | _ => none

/-- The newline-terminated lines of the stream, in order, each including its
terminating newline; a trailing byte run not terminated by a newline is not a
line. This is the sequence of successful `ReadBytes` results the loop sees. -/
def completeLines : List Nat → List (List Nat)
  | s =>
    match h : readBytesNL s with
    | none => []
    | some (line, rest) => line :: completeLines rest
termination_by s => s.length
decreasing_by all_goals exact readBytesNL_rest_lt _ _ _ h

/-- Spec-side description of one loop iteration on a complete line: the event
delivered for that line, if any — the line must be non-empty after trimming,
decode successfully, and carry a non-empty sequence token. -/
def processLine (dec : List Nat → Option Change) (line : List Nat) :
    Option Change :=
  let t := trimSpace line
  if t.length ≤ 0 then none
  else
    match dec t with
    | some result => if result.Seq ≠ "" then some result else none
    | none => none

/-- Return value of `Changes.Stream`: `channel = some body` models that a
channel was created (`make(chan Change)`) and `readStream` was spawned on the
response whose body is `body`; `channel = none` models returning a nil channel
without creating one. `error` is the returned error value. -/
structure StreamReturn where
  channel : Option (List Nat)
  error : Option String
deriving DecidableEq

/-- The parameter value `Stream` builds its query from: src/changes.go line 80
assigns `params.Feed = &continuous` before calling `query.Values(params)`, so
every caller-supplied feed mode is overridden to `"continuous"`. -/
def streamRequestParams (params : ChangesQueryParameters) :
    ChangesQueryParameters :=
  { params with Feed := some "continuous" }

/-- Model of `Changes.Stream` from src/changes.go lines 78-92. The external
collaborators are abstracted: `encode` is `query.Values` (which can fail) and
`request` is `Client.Request`, returning a response body together with an
optional error, as the Go call returns `(res, err)`. The source checks the
error of `query.Values` and returns it, but never examines the error of
`Client.Request`: it unconditionally makes the channel, spawns
`readStream(res, resultsChan)` and returns `(resultsChan, nil)`. -/
def Stream {Q : Type} (encode : ChangesQueryParameters → Except String Q)
    (request : Q → List Nat × Option String)
    (params : ChangesQueryParameters) : StreamReturn :=
  match encode (streamRequestParams params) with
  | Except.error e => ⟨none, some e⟩
  | Except.ok q =>
    let res := request q
    ⟨some res.1, none⟩

/-- Return value of `Changes.Poll`: the response pointer (none models nil),
the returned error, and whether `r.Body.Close()` ran. The deferred close is
registered only after `Client.Request`, so the early return on a
`query.Values` error closes no body. -/
structure PollReturn where
  response : Option ChangesResponse
  error : Option String
  bodyClosed : Bool
deriving DecidableEq

/-- The parameter value `Poll` builds its query from: src/changes.go lines
117-119 set `params.Feed = nil` when `params.Feed != nil` and
`*(params.Feed) == "continuous"`, and leave `params` unchanged otherwise. -/
def pollRequestParams (params : ChangesQueryParameters) :
    ChangesQueryParameters :=
  if params.Feed = some "continuous" then { params with Feed := none }
  else params

/-- Model of `Changes.Poll` from src/changes.go lines 115-131. `encode` abstracts
`query.Values`, `request` abstracts `Client.Request` (body plus optional
error), `decodeBody` abstracts `json.NewDecoder(r.Body).Decode` (decoded
response plus optional error). The source assigns `r, err := Request(...)`
and then, without inspecting that `err`, reassigns
`err = json.NewDecoder(r.Body).Decode(&response)` and returns
`(&response, err)`: the transport error is discarded. -/
def Poll {Q : Type} (encode : ChangesQueryParameters → Except String Q)
    (request : Q → List Nat × Option String)
    (decodeBody : List Nat → ChangesResponse × Option String)
    (params : ChangesQueryParameters) : PollReturn :=
  match encode (pollRequestParams params) with
  | Except.error e => ⟨none, some e, false⟩
  | Except.ok q =>
    let r := request q
    let d := decodeBody r.1
    ⟨some d.1, d.2, true⟩

/-- Value of the local variable `params` of `Stream` after the feed-mode
assignment: the assignment is real, but it acts on the variable of the
callee. -/
def streamLocalParamsFinal (p : ChangesQueryParameters) :
    ChangesQueryParameters :=
  streamRequestParams p

/-- Value of the local variable `params` of `Poll` after the feed-stripping
branch. -/
def pollLocalParamsFinal (p : ChangesQueryParameters) :
    ChangesQueryParameters :=
  pollRequestParams p

/-- Parameter struct held by the caller after `Stream` returns. In Go, the
parameter `params ChangesQueryParameters` of `Stream` is a non-pointer struct,
so the call copies the value held by the caller (Go is call-by-value for
struct parameters); the assignment `params.Feed = &continuous`
(src/changes.go line 80) rebinds the `Feed` field of the copy held by the
callee and never writes through a pointer into the struct of the caller.
Nothing else in `Stream` writes through any pointer field of `params`. Hence
the variable of the caller after the call equals its value before the
call. -/
def callerParamsAfterStream (p : ChangesQueryParameters) :
    ChangesQueryParameters :=
  p

/-- Parameter struct held by the caller after `Poll` returns: as with
`Stream`, `params` is passed by value and `params.Feed = nil`
(src/changes.go line 118) acts only on the copy held by the callee. -/
def callerParamsAfterPoll (p : ChangesQueryParameters) :
    ChangesQueryParameters :=
  p

/-- Sample decoder that rejects every line; a stand-in for `json.Unmarshal`
(external standard library) in closed statements. -/
def decNone : List Nat → Option Change := fun _ => none

/-- Byte values of an ASCII string. -/
def bytesOf (s : String) : List Nat := s.toList.map Char.toNat

/-- A concrete well-formed change event. -/
def changeEx : Change := ⟨[⟨"1-x"⟩], "doc1", "1-abc"⟩

/-- One well-formed JSON change line, without a terminating newline. -/
def jsonLineEx : String :=
  "\x7b\"seq\":\"1-abc\",\"id\":\"doc1\",\"changes\":[\x7b\"rev\":\"1-x\"\x7d]\x7d"

/-- Sample decoder accepting exactly the bytes of `jsonLineEx`
(a stand-in for `json.Unmarshal` in closed statements). -/
def decOne : List Nat → Option Change := fun l =>
  if l = bytesOf jsonLineEx then some changeEx else none

/-- A concrete parameter set whose feed mode is `longpoll`. -/
def pLongpoll : ChangesQueryParameters := { Feed := some "longpoll" }

/-- A concrete parameter set whose feed mode is `continuous`. -/
def pContinuous : ChangesQueryParameters := { Feed := some "continuous" }

/-- Sample encoder that always succeeds, standing in for `query.Values`. -/
def encOK : ChangesQueryParameters → Except String String :=
  fun _ => Except.ok "feed=continuous"

/-- Sample encoder that always fails, standing in for a failing
`query.Values`. -/
def encFail : ChangesQueryParameters → Except String String :=
  fun _ => Except.error "query: encoding failed"

/-- Sample transport whose request fails: it returns an empty body together
with a non-nil error, as `http.Client` does on a connection failure. -/
def reqFail : String → List Nat × Option String :=
  fun _ => ([], some "dial tcp: connection refused")

/-- Sample body decoder standing in for `json.NewDecoder(...).Decode`: fails
with a decode error (an empty body is not a JSON document). -/
def decBodyFail : List Nat → ChangesResponse × Option String :=
  fun _ => (⟨"", [], 0⟩, some "unexpected end of JSON input")


theorem readStream_eq_none {dec : List Nat → Option Change} {s : List Nat}
    (h : readBytesNL s = none) :
    readStream dec s = [Action.closeChan, Action.closeBody] := by
  rw [readStream]
  split
  · rfl
  · rename_i l2 r2 h2
    rw [h] at h2
    exact absurd h2 (by simp)

theorem readStream_eq_some {dec : List Nat → Option Change}
    {s line rest : List Nat} (h : readBytesNL s = some (line, rest)) :
    readStream dec s =
      (match processLine dec line with
       | some c => Action.send c :: readStream dec rest
       | none => readStream dec rest) := by
  rw [readStream]
  split
  · rename_i h2; rw [h] at h2; exact absurd h2 (by simp)
  · rename_i l2 r2 h2
    rw [h] at h2
    simp only [Option.some.injEq, Prod.mk.injEq] at h2
    obtain ⟨rfl, rfl⟩ := h2
    simp only [processLine]
    by_cases ht : (trimSpace line).length ≤ 0
    · simp [ht]
    · simp only [if_neg ht]
      cases hd : dec (trimSpace line) with
      | none => simp
      | some result =>
        by_cases hs : result.Seq ≠ ""
        · simp [hs]
        · simp [hs]

theorem completeLines_eq_none {s : List Nat} (h : readBytesNL s = none) :
    completeLines s = [] := by
  rw [completeLines]
  split
  · rfl
  · rename_i l2 r2 h2
    rw [h] at h2
    exact absurd h2 (by simp)

theorem completeLines_eq_some {s line rest : List Nat}
    (h : readBytesNL s = some (line, rest)) :
    completeLines s = line :: completeLines rest := by
  rw [completeLines]
  split
  · rename_i h2; rw [h] at h2; exact absurd h2 (by simp)
  · rename_i l2 r2 h2
    rw [h] at h2
    simp only [Option.some.injEq, Prod.mk.injEq] at h2
    obtain ⟨rfl, rfl⟩ := h2
    rfl

theorem sentEvents_eq_none {dec : List Nat → Option Change} {s : List Nat}
    (h : readBytesNL s = none) : sentEvents dec s = [] := by
  rw [sentEvents, readStream_eq_none h]
  rfl

theorem sentEvents_eq_some {dec : List Nat → Option Change}
    {s line rest : List Nat} (h : readBytesNL s = some (line, rest)) :
    sentEvents dec s =
      (match processLine dec line with
       | some c => c :: sentEvents dec rest
       | none => sentEvents dec rest) := by
  rw [sentEvents, readStream_eq_some h]
  cases hp : processLine dec line with
  | none => simp [sentEvents]
  | some c => simp [sentEvents]

theorem sentEvents_decodes_aux (dec : List Nat → Option Change) :
    ∀ (n : Nat) (s : List Nat), s.length ≤ n →
      sentEvents dec s = (completeLines s).filterMap (processLine dec) := by
  intro n
  induction n with
  | zero =>
    intro s hs
    have hnil : s = [] := List.eq_nil_of_length_eq_zero (Nat.le_zero.mp hs)
    subst hnil
    have h0 : readBytesNL ([] : List Nat) = none := rfl
    rw [sentEvents_eq_none h0, completeLines_eq_none h0]
    rfl
  | succ n ih =>
    intro s hs
    cases h : readBytesNL s with
    | none =>
      rw [sentEvents_eq_none h, completeLines_eq_none h]
      rfl
    | some p =>
      obtain ⟨line, rest⟩ := p
      have hlt := readBytesNL_rest_lt s line rest h
      have ihr := ih rest (by omega)
      rw [sentEvents_eq_some h, completeLines_eq_some h]
      cases hp : processLine dec line with
      | none => simp [List.filterMap_cons, hp, ihr]
      | some c => simp [List.filterMap_cons, hp, ihr]

theorem readStream_shape_aux (dec : List Nat → Option Change) :
    ∀ (n : Nat) (s : List Nat), s.length ≤ n →
      readStream dec s =
        (sentEvents dec s).map Action.send ++
          [Action.closeChan, Action.closeBody] := by
  intro n
  induction n with
  | zero =>
    intro s hs
    have hnil : s = [] := List.eq_nil_of_length_eq_zero (Nat.le_zero.mp hs)
    subst hnil
    have h0 : readBytesNL ([] : List Nat) = none := rfl
    rw [readStream_eq_none h0, sentEvents_eq_none h0]
    rfl
  | succ n ih =>
    intro s hs
    cases h : readBytesNL s with
    | none =>
      rw [readStream_eq_none h, sentEvents_eq_none h]
      rfl
    | some p =>
      obtain ⟨line, rest⟩ := p
      have hlt := readBytesNL_rest_lt s line rest h
      have ihr := ih rest (by omega)
      rw [readStream_eq_some h, sentEvents_eq_some h]
      cases hp : processLine dec line with
      | none => simp only [hp]; exact ihr
      | some c => simp only [hp]; rw [ihr]; rfl


theorem readBytesNL_no_newline {t : List Nat} (h : ∀ b ∈ t, b ≠ 10) :
    readBytesNL t = none := by
  induction t with
  | nil => rfl
  | cons b rest ih =>
    have hb : b ≠ 10 := h b (by simp)
    have hr : readBytesNL rest = none := ih (fun x hx => h x (by simp [hx]))
    simp [readBytesNL, hb, hr]

theorem readBytesNL_append_none {s t : List Nat} (hs : readBytesNL s = none)
    (ht : readBytesNL t = none) : readBytesNL (s ++ t) = none := by
  induction s with
  | nil => simpa using ht
  | cons b rest ih =>
    by_cases hb : b = 10
    · simp [readBytesNL, hb] at hs
    · simp only [readBytesNL, if_neg hb] at hs
      cases hr : readBytesNL rest with
      | none =>
        have := ih hr
        simp [List.cons_append, readBytesNL, hb, this]
      | some p =>
        obtain ⟨l2, r2⟩ := p
        rw [hr] at hs
        exact absurd hs (by simp)

theorem readBytesNL_append_some {s line rest : List Nat} (t : List Nat)
    (h : readBytesNL s = some (line, rest)) :
    readBytesNL (s ++ t) = some (line, rest ++ t) := by
  induction s generalizing line with
  | nil => simp [readBytesNL] at h
  | cons b s2 ih =>
    by_cases hb : b = 10
    · simp only [readBytesNL, if_pos hb] at h
      simp only [Option.some.injEq, Prod.mk.injEq] at h
      obtain ⟨rfl, rfl⟩ := h
      simp [List.cons_append, readBytesNL, hb]
    · simp only [readBytesNL, if_neg hb] at h
      cases hr : readBytesNL s2 with
      | none => rw [hr] at h; exact absurd h (by simp)
      | some p =>
        obtain ⟨l2, r2⟩ := p
        rw [hr] at h
        simp only [Option.some.injEq, Prod.mk.injEq] at h
        obtain ⟨rfl, rfl⟩ := h
        have := ih hr
        simp [List.cons_append, readBytesNL, hb, this]

theorem readStream_drop_tail_aux (dec : List Nat → Option Change) :
    ∀ (n : Nat) (s t : List Nat), s.length ≤ n → (∀ b ∈ t, b ≠ 10) →
      readStream dec (s ++ t) = readStream dec s := by
  intro n
  induction n with
  | zero =>
    intro s t hs ht
    have hnil : s = [] := List.eq_nil_of_length_eq_zero (Nat.le_zero.mp hs)
    subst hnil
    have h0 : readBytesNL ([] : List Nat) = none := rfl
    rw [readStream_eq_none h0]
    rw [readStream_eq_none (by simpa using readBytesNL_no_newline ht)]
  | succ n ih =>
    intro s t hs ht
    cases h : readBytesNL s with
    | none =>
      rw [readStream_eq_none h,
        readStream_eq_none (readBytesNL_append_none h (readBytesNL_no_newline ht))]
    | some p =>
      obtain ⟨line, rest⟩ := p
      have hlt := readBytesNL_rest_lt s line rest h
      have ihr := ih rest t (by omega) ht
      rw [readStream_eq_some h, readStream_eq_some (readBytesNL_append_some t h)]
      cases hp : processLine dec line with
      | none => simp only [hp]; exact ihr
      | some c => simp only [hp]; rw [ihr]


/-- C1: for every input byte stream, the sequence of `Change` events sent on
the output channel by the stream reader equals, in input order, the decode of
exactly those newline-terminated lines that are non-empty after trimming
whitespace, decode successfully as a `Change`, and carry a non-empty sequence
token; every other line produces no event and the loop continues. -/
theorem C1_sent_events_are_decoded_complete_lines
    (dec : List Nat → Option Change) (s : List Nat) :
    sentEvents dec s = (completeLines s).filterMap (processLine dec) :=
  sentEvents_decodes_aux dec s.length s (Nat.le_refl _)

/-- C2 (code bug): on a transport failure, `Stream` still creates the channel
and returns a nil error — the error value of `Client.Request` is never examined —
while a `query.Values` failure is returned with no channel, as claimed. -/
theorem C2_stream_ignores_request_error :
    Stream encOK reqFail {} =
      ⟨some [], none⟩ ∧
    (reqFail "feed=continuous").2 = some "dial tcp: connection refused" ∧
    Stream encFail reqFail {} = ⟨none, some "query: encoding failed"⟩ :=
  ⟨rfl, rfl, rfl⟩

/-- C3 (counterexample): on a concrete run (empty stream, any decoder) the
trace is `[closeChan, closeBody]`: the output channel close strictly precedes
the response body close, refuting the claimed body-then-channel order. -/
theorem C3_close_order_counterexample :
    readStream decNone [] = [Action.closeChan, Action.closeBody] ∧
    (readStream decNone []).indexOf Action.closeChan <
      (readStream decNone []).indexOf Action.closeBody := by
  have h : readStream decNone [] = [Action.closeChan, Action.closeBody] :=
    readStream_eq_none rfl
  exact ⟨h, by rw [h]; decide⟩

/-- C3 (amended): for every run of the stream-reading loop, when the
underlying read returns any error (including normal end-of-stream) the loop
terminates, and on termination the output channel is closed and then the
response body is closed, in that order (Go runs deferred calls in LIFO order),
unconditionally; no error is propagated to the consumer, who observes
termination only as channel closure: the trace is exactly the sends followed
by the channel close and then the body close. -/
theorem C3_trace_is_sends_then_chan_close_then_body_close
    (dec : List Nat → Option Change) (s : List Nat) :
    readStream dec s =
      (sentEvents dec s).map Action.send ++
        [Action.closeChan, Action.closeBody] :=
  readStream_shape_aux dec s.length s (Nat.le_refl _)

/-- C4: for every input stream, the output channel is closed exactly once and
the response body is released exactly once; a second close or release is
never attempted. -/
theorem C4_channel_closed_once_and_body_released_once
    (dec : List Nat → Option Change) (s : List Nat) :
    (readStream dec s).count Action.closeChan = 1 ∧
    (readStream dec s).count Action.closeBody = 1 := by
  rw [readStream_shape_aux dec s.length s (Nat.le_refl _)]
  constructor
  · rw [List.count_append]
    have h0 : ((sentEvents dec s).map Action.send).count Action.closeChan = 0 := by
      rw [List.count_eq_zero]
      simp
    rw [h0]
    rfl
  · rw [List.count_append]
    have h0 : ((sentEvents dec s).map Action.send).count Action.closeBody = 0 := by
      rw [List.count_eq_zero]
      simp
    rw [h0]
    rfl

/-- C5: for every parameter set, whatever feed mode the caller supplied
(including none), `Stream` builds its query from parameters whose feed mode is
`continuous`, and its observable result does not depend on the caller-supplied
feed mode. -/
theorem C5_stream_forces_continuous_feed {Q : Type}
    (encode : ChangesQueryParameters → Except String Q)
    (request : Q → List Nat × Option String)
    (p : ChangesQueryParameters) (f : Option String) :
    (streamRequestParams p).Feed = some "continuous" ∧
    Stream encode request { p with Feed := f } = Stream encode request p :=
  ⟨rfl, rfl⟩

/-- C6: `Poll` never builds its query from parameters with feed mode
`continuous`, and parameter sets with any other feed mode pass through
unchanged. -/
theorem C6_poll_strips_continuous_feed (p : ChangesQueryParameters) :
    (pollRequestParams p).Feed ≠ some "continuous" ∧
    (p.Feed ≠ some "continuous" → pollRequestParams p = p) := by
  constructor
  · unfold pollRequestParams
    by_cases h : p.Feed = some "continuous"
    · rw [if_pos h]
      simp
    · rw [if_neg h]
      exact h
  · intro h
    unfold pollRequestParams
    rw [if_neg h]

/-- Witness for C6 at a concrete parameter set with feed mode `longpoll`. -/
theorem C6_poll_strips_continuous_feed_witness :
    (pollRequestParams pLongpoll).Feed ≠ some "continuous" ∧
    pollRequestParams pLongpoll = pLongpoll :=
  ⟨(C6_poll_strips_continuous_feed pLongpoll).1,
   (C6_poll_strips_continuous_feed pLongpoll).2 (by decide)⟩

/-- C7 (counterexample): at concrete inputs the struct held by the caller is
unchanged after `Stream` and after `Poll` — its feed mode is not `continuous`
after `Stream`, and not unset after `Poll` — while the local copy held by the
callee did change, refuting the claimed caller-visible in-place mutation. -/
theorem C7_caller_struct_unchanged_counterexample :
    callerParamsAfterStream pLongpoll = pLongpoll ∧
    (callerParamsAfterStream pLongpoll).Feed ≠ some "continuous" ∧
    streamLocalParamsFinal pLongpoll ≠ pLongpoll ∧
    callerParamsAfterPoll pContinuous = pContinuous ∧
    (callerParamsAfterPoll pContinuous).Feed ≠ none ∧
    pollLocalParamsFinal pContinuous ≠ pContinuous :=
  ⟨rfl, by decide, by decide, rfl, by decide, by decide⟩

/-- C7 (amended): the feed-mode overwrite in `Stream` and `Poll` acts only on
the by-value copy of the parameter struct held by the callee; the struct the caller
passed in is unchanged after the call, for every parameter set. -/
theorem C7_feed_overwrite_is_local_to_callee (p : ChangesQueryParameters) :
    callerParamsAfterStream p = p ∧
    callerParamsAfterPoll p = p ∧
    streamLocalParamsFinal p = streamRequestParams p ∧
    pollLocalParamsFinal p = pollRequestParams p :=
  ⟨rfl, rfl, rfl, rfl⟩

/-- C9: whenever query encoding succeeds, the result of `Poll` is determined by
the response body alone — the transport error returned alongside it is
discarded, the body is closed, and the returned error is exactly the JSON
decode error. -/
theorem C9_poll_error_is_decode_error {Q : Type}
    (encode : ChangesQueryParameters → Except String Q)
    (request : Q → List Nat × Option String)
    (decodeBody : List Nat → ChangesResponse × Option String)
    (p : ChangesQueryParameters) (q : Q)
    (h : encode (pollRequestParams p) = Except.ok q) :
    Poll encode request decodeBody p =
      ⟨some (decodeBody (request q).1).1, (decodeBody (request q).1).2,
        true⟩ := by
  unfold Poll
  rw [h]

/-- Witness for C9: with a transport that fails and a body decoder that
fails, `Poll` returns the decode error, not the transport error. -/
theorem C9_poll_error_is_decode_error_witness :
    encOK (pollRequestParams {}) = Except.ok "feed=continuous" ∧
    Poll encOK reqFail decBodyFail {} =
      ⟨some ⟨"", [], 0⟩, some "unexpected end of JSON input", true⟩ :=
  ⟨rfl,
   C9_poll_error_is_decode_error encOK reqFail decBodyFail {}
     "feed=continuous" rfl⟩

/-- C10: a trailing byte run not terminated by a newline before end-of-stream
is never processed: appending it to any stream leaves the entire reader
trace (hence the events delivered) unchanged. -/
theorem C10_unterminated_final_line_never_delivered
    (dec : List Nat → Option Change) (s t : List Nat)
    (h : ∀ b ∈ t, b ≠ 10) :
    readStream dec (s ++ t) = readStream dec s :=
  readStream_drop_tail_aux dec s.length s t (Nat.le_refl _) h

/-- Witness for C10: a valid JSON line with a non-empty sequence token that
its decoder accepts, but with no terminating newline, produces no event. -/
theorem C10_unterminated_final_line_never_delivered_witness :
    (∀ b ∈ bytesOf jsonLineEx, b ≠ 10) ∧
    readStream decOne ([] ++ bytesOf jsonLineEx) = readStream decOne [] :=
  ⟨by decide,
   C10_unterminated_final_line_never_delivered decOne [] (bytesOf jsonLineEx)
     (by decide)⟩

end Couchdb
